import Mathlib

/-
  Verification development for the LitScanner2 chunked worker pipeline.

  The repository drives literature-search jobs through a key-value store:
  api/worker_step.py advances each eligible job by one bounded chunk per
  invocation (discovery, then processing/normalization, then an inline
  completion check), while worker.py / tasks_impl.py run a whole job in one
  call.  Raw provider records and job metadata are JSON-like values, embedded
  here as the inductive type JVal; Python truthiness and dict lookups are
  embedded as truthy / pyOr / JVal.get.  Machine state for one job (the redis
  hash plus the two record blobs) is the structure Job; one invocation of the
  step executor on one job is stepJob, parameterized by the outcome of the
  single provider page fetch it may perform.
-/

namespace LitScanner

/-- JSON-like values as stored in the progress store and returned by the
provider.  Numbers are integers here; no claim depends on float payloads. -/
inductive JVal where
  | null : JVal
  | s : String → JVal
  | n : Int → JVal
  | arr : List JVal → JVal
  | obj : List (String × JVal) → JVal

/-- Python truthiness for JVal: None, empty string, zero, empty list and
empty dict are falsy. -/
def truthy : JVal → Bool
  | JVal.null => false
  | JVal.s x => !(x == "")
  | JVal.n x => !(x == 0)
  | JVal.arr xs => !xs.isEmpty
  | JVal.obj kvs => !kvs.isEmpty

/-- Python a or b. -/
def pyOr (a b : JVal) : JVal := if truthy a then a else b

/-- Python p.get(k) on a dict, and a None result otherwise; every call site
in the source either guards with isinstance or catches the AttributeError
raised on non-dicts, so the non-dict case is only reached behind guards. -/
def JVal.get (p : JVal) (k : String) : JVal :=
  match p with
  | JVal.obj kvs => (kvs.lookup k).getD JVal.null
  | _ => JVal.null

/-- Python isinstance(v, dict). -/
def isObj : JVal → Bool
  | JVal.obj _ => true
  | _ => false

/-- Python str.split(sep) for a one-character separator, over the character
list of the string (the builtin String.splitOn does not reduce in the
kernel, so the split is implemented here directly). -/
def splitCharAux (sep : Char) : List Char → List Char → List String
  | [], acc => [String.mk acc.reverse]
  | c :: cs, acc =>
    if c == sep then String.mk acc.reverse :: splitCharAux sep cs []
    else splitCharAux sep cs (c :: acc)

/-- Python s.split(sep) with a one-character separator. -/
def splitChar (sep : Char) (s : String) : List String := splitCharAux sep s.data []

/-- Python whitespace test used by str.strip. -/
def isPySpace (c : Char) : Bool :=
  c == ' ' || c == '\t' || c == '\n' || c == '\x0d' || c == '\x0b' || c == '\x0c'

/-- Python str.strip(): remove leading and trailing whitespace. -/
def pyStrip (s : String) : String :=
  String.mk (((s.data.dropWhile isPySpace).reverse.dropWhile isPySpace).reverse)

/-- Python s.replace with a one-character pattern and replacement. -/
def replaceChar (pat rep : Char) (s : String) : String :=
  String.mk (s.data.map (fun c => if c == pat then rep else c))

/-- Python s[:n], a prefix of at most n characters. -/
def takeChars (n : Nat) (s : String) : String := String.mk (s.data.take n)

/-- api/worker_step.py normalize: maps one raw provider record to the
canonical paper dict.  Returns none when the input is not a dict, which in
the source raises AttributeError (caught by the caller, record dropped). -/
def normalize (p : JVal) : Option JVal :=
  match p with
  | JVal.obj _ =>
    let ids := pyOr (p.get "ids") (JVal.obj [])
    let host := pyOr (p.get "host_venue") (JVal.obj [])
    some (JVal.obj [
      ("id", p.get "id"),
      ("title", pyOr (p.get "title") (p.get "display_name")),
      ("publication_year", pyOr (p.get "publication_year") (p.get "year")),
      ("authorships", pyOr (p.get "authorships") (JVal.arr [])),
      ("doi", pyOr (if isObj ids then ids.get "doi" else p.get "doi") (JVal.s "")),
      ("journal", pyOr (pyOr (if isObj host then host.get "display_name" else JVal.null)
                             (p.get "venue")) (JVal.s "")),
      ("abstract", pyOr (p.get "abstract") (JVal.s "")),
      ("url", pyOr (pyOr (p.get "id") (p.get "url")) (JVal.s ""))])
  | _ => none

/-- tasks_impl.py normalize_record: the push-mode normalizer.  The journal
key exists only when host_venue is a dict, matching the source insertion
order; none models the AttributeError on non-dict input. -/
def normalize_record (p : JVal) : Option JVal :=
  match p with
  | JVal.obj _ =>
    let ids := pyOr (p.get "ids") (JVal.obj [])
    let host := pyOr (p.get "host_venue") (JVal.obj [])
    let base := [
      ("id", p.get "id"),
      ("title", pyOr (p.get "title") (p.get "display_name")),
      ("publication_year", pyOr (p.get "publication_year") (p.get "year")),
      ("authorships", pyOr (p.get "authorships") (JVal.arr [])),
      ("doi", if isObj ids then ids.get "doi" else p.get "doi")]
    let mid := if isObj host then
        base ++ [("journal", JVal.obj [("name", pyOr (host.get "display_name") (host.get "publisher"))]),
                 ("venue", host.get "display_name")]
      else base ++ [("venue", p.get "venue")]
    some (JVal.obj (mid ++ [
      ("abstract", pyOr (pyOr (p.get "abstract_inverted_index") (p.get "abstract")) (JVal.s "")),
      ("url", pyOr (p.get "id") (p.get "url"))]))
  | _ => none

/-- One snippet-extraction step on an abstract value, shared verbatim by
worker_step.py lines 131-136 and tasks_impl.py lines 101-107: keep the first
two period-delimited segments and restore a trailing period.  The outer
Option is the exception channel: a truthy non-string abstract (for example
an inverted-index dict stored by normalize_record) raises AttributeError on
.split in the source. -/
def snippetStep (v : JVal) : Option (Option String) :=
  match pyOr v (JVal.s "") with
  | JVal.s a =>
    some (if a == "" then none else
      let parts := splitChar '.' a
      let snip := pyStrip (String.intercalate "." (parts.take 2))
      if snip == "" then none else some (snip ++ "."))
  | _ => none

/-- Snippet extraction over a processed-record list; none when any record
raises, which aborts the enclosing step in the source. -/
def extractSnippetsE (recs : List JVal) : Option (List String) :=
  (recs.mapM (fun r => snippetStep (r.get "abstract"))).map (fun l => l.filterMap id)

example : normalize (JVal.obj []) = some (JVal.obj [
  ("id", JVal.null), ("title", JVal.null), ("publication_year", JVal.null),
  ("authorships", JVal.arr []), ("doi", JVal.s ""), ("journal", JVal.s ""),
  ("abstract", JVal.s ""), ("url", JVal.s "")]) := rfl

example : snippetStep (JVal.s "Alpha beta. Gamma delta. Tail.") =
    some (some "Alpha beta. Gamma delta.") := rfl

example : snippetStep (JVal.obj [("w", JVal.arr [JVal.n 0])]) = none := rfl

/-- Summary object persisted at completion (worker_step.py line 143 and
tasks_impl.py line 112). -/
structure SummaryObj where
  title : String
  num_papers : Nat
  composed_summary : String

/-- The state of one job: the redis metadata hash (status, progress,
next_offset, counters, error, summary, and the result field written only by
worker.py) together with the two blobs keyed off the job id (the raw
discovered list under :papers and the normalized list under
:papers_processed).  Numeric fields are stored as decimal strings in redis
and parsed back with int(); the round trip is the identity on naturals, so
they are carried as Nat here. -/
structure Job where
  status : String
  title : String
  max_papers : Nat
  per_run : Nat
  next_offset : Nat
  progress : Nat
  error : Option String
  summary : Option SummaryObj
  result : Option SummaryObj
  papers : List JVal
  processed : List JVal

/-- Outcome of the single provider page fetch a discovery step may perform:
the results array of the response JSON, or the raised exception message. -/
inductive FetchResult where
  | ok : List JVal → FetchResult
  | err : String → FetchResult

/-- worker_step.py lines 94-97: append results one at a time, breaking once
the list length reaches max_papers (the break fires after the append). -/
def appendCapped (papers : List JVal) (results : List JVal) (maxp : Nat) : List JVal :=
  match results with
  | [] => papers
  | r :: rs =>
    let p2 := papers ++ [r]
    if maxp ≤ p2.length then p2 else appendCapped p2 rs maxp

/-- worker_step.py lines 137-141: the inline extractive summary text built
at completion. -/
def composeDone (title : String) (numRecords : Nat) (snippets : List String) : String :=
  "Automatic reduce summary for: " ++ title ++ "\n\n" ++
  "Collected " ++ toString numRecords ++ " processed records.\n\n" ++
  "Representative snippets:\n" ++
  String.join ((snippets.take 20).map (fun s =>
    "- " ++ takeChars 400 (replaceChar '\n' ' ' s) ++ "\n"))

/-- The job after a successful discovery write (worker_step.py lines
98-99): papers blob set, status discovering, progress capped at 50. -/
def discoSuccess (results : List JVal) (j : Job) : Job :=
  { j with papers := appendCapped j.papers results j.max_papers,
           status := "discovering",
           progress := min 50 ((appendCapped j.papers results j.max_papers).length * 100 / j.max_papers) }

/-- The job after a discovery whose progress computation divided by a zero
max_papers: the papers blob write already happened, then the except clause
records the error (worker_step.py line 101). -/
def discoDivZero (results : List JVal) (j : Job) : Job :=
  { j with papers := appendCapped j.papers results j.max_papers,
           status := "discovering", progress := 0, error := some "division by zero" }

/-- The job after a failed provider fetch (worker_step.py line 101). -/
def discoFail (m : String) (j : Job) : Job :=
  { j with status := "discovering", progress := 0, error := some m }

/-- Discovery phase of one step (worker_step.py lines 89-102): fetch one
page when the job is still queued with no discovered records.  Returns the
job after the writes of this phase, whether a fetch was attempted, and
whether the source continue statement skips the rest of this iteration
(taken on fetch failure, and on the ZeroDivisionError of the progress
computation when max_papers is zero, both caught by the except clause). -/
def discoveryPhase (prov : FetchResult) (j : Job) : Job × Bool × Bool :=
  if j.status = "queued" ∧ j.papers.isEmpty = true then
    match prov with
    | FetchResult.ok results =>
      if j.max_papers = 0 then (discoDivZero results j, true, true)
      else (discoSuccess results j, true, false)
    | FetchResult.err m => (discoFail m j, true, true)
  else (j, false, false)

/-- The slice papers_list[offset : offset + per_run] processed by one step
(worker_step.py line 106). -/
def procChunk (j : Job) : List JVal := (j.papers.drop j.next_offset).take j.per_run

/-- The cursor after one processing step (worker_step.py line 122):
advanced by the actual slice length, not the requested per_run. -/
def procOffset (j : Job) : Nat := j.next_offset + (procChunk j).length

/-- The job after the cursor write of a processing step (worker_step.py
lines 106-124): processed blob extended by the normalized slice (records
that raise are dropped), cursor advanced, progress clamped to 99, status
processing. -/
def procMid (j : Job) : Job :=
  { j with processed := j.processed ++ (procChunk j).filterMap normalize,
           next_offset := procOffset j,
           progress := min (procOffset j * 100 / Nat.max 1 j.max_papers) 99,
           status := "processing" }

/-- The job after the completion write (worker_step.py lines 143-144):
summary persisted, status done, progress 100, and the papers blob
overwritten with the processed set. -/
def procDone (j : Job) (snips : List String) : Job :=
  { procMid j with
      summary := some { title := j.title, num_papers := (procMid j).processed.length,
                        composed_summary := composeDone j.title (procMid j).processed.length snips },
      status := "done", progress := 100, papers := (procMid j).processed }

/-- Processing phase of one step (worker_step.py lines 104-145): slice,
normalize, append, advance the cursor, then run the inline completion check
when the new cursor reaches max_papers or the end of the discovered list.
Returns the job after the writes of this phase, whether the processing
branch ran (its last statement appends the job id to the response list),
and whether snippet extraction raised (aborting the invocation after the
cursor write but before the done write). -/
def processingPhase (j : Job) : Job × Bool × Bool :=
  if j.papers.isEmpty = true then (j, false, false)
  else if j.max_papers ≤ procOffset j ∨ j.papers.length ≤ procOffset j then
    match extractSnippetsE (procMid j).processed with
    | none => (procMid j, true, true)
    | some snips => (procDone j snips, true, false)
  else (procMid j, true, false)

/-- Result of one invocation of the step executor on one job. -/
structure StepResult where
  job : Job
  fetched : Bool
  ran : Bool
  crashed : Bool

/-- One invocation of worker_step.py on one candidate job. -/
def stepJob (prov : FetchResult) (j : Job) : StepResult :=
  if (discoveryPhase prov j).2.2 then
    ⟨(discoveryPhase prov j).1, (discoveryPhase prov j).2.1, false, false⟩
  else
    ⟨(processingPhase (discoveryPhase prov j).1).1, (discoveryPhase prov j).2.1,
     (processingPhase (discoveryPhase prov j).1).2.1,
     (processingPhase (discoveryPhase prov j).1).2.2⟩

/-- worker_step.py line 64: the statuses accepted by the key-scan filter. -/
def eligibleStatuses : List String := ["queued", "discovering", "processing", "summarizing"]

/-- Whether the key-scan candidate filter admits a job. -/
def scanEligible (j : Job) : Bool := eligibleStatuses.contains j.status

/-- worker_step.py lines 49-65: candidate gathering.  An explicit project_id
in the request body short-circuits the scan and its status filter. -/
def selectCandidates (explicitPid : Option String) (jobs : List (String × Job)) : List String :=
  match explicitPid with
  | some pid => [pid]
  | none => (jobs.filter (fun pj => scanEligible pj.2)).map Prod.fst

/-- Replace the job stored under pid. -/
def updateStore (store : List (String × Job)) (pid : String) (j : Job) : List (String × Job) :=
  store.map (fun pj => if pj.1 = pid then (pid, j) else pj)

/-- worker_step.py lines 67-145: the per-candidate loop.  Returns the store
after all writes, the response list of stepped job ids, and whether an
uncaught exception aborted the loop (the snippet crash), in which case the
ids list is not returned to the caller in the source. -/
def stepAll (prov : String → FetchResult) : List String → List (String × Job) →
    List (String × Job) × List String × Bool
  | [], store => (store, [], false)
  | pid :: rest, store =>
    match store.lookup pid with
    | none => stepAll prov rest store
    | some j =>
      let r := stepJob (prov pid) j
      let store2 := updateStore store pid r.job
      if r.crashed then (store2, [], true)
      else
        let t := stepAll prov rest store2
        (t.1, (if r.ran then [pid] else []) ++ t.2.1, t.2.2)

/-- Stable insertion of a string into a list sorted by non-increasing
length: the new string goes after every existing string of greater or equal
length, matching the stability of the builtin sort used in the source. -/
def insertSnip (s : String) : List String → List String
  | [] => [s]
  | t :: ts => if t.length < s.length then s :: t :: ts else t :: insertSnip s ts

/-- Python sorted(l, key=lambda s: -len(s)): stable descending sort by
length. -/
def sortByLenDesc (l : List String) : List String :=
  l.foldl (fun acc s => insertSnip s acc) []

/-- tasks_impl.py compose_reduce_summary.  The source iterates over
set(snippets), whose iteration order the language does not specify (string
hashing is even randomized per process); that order is therefore an explicit
parameter setOrder here, constrained by validSetOrder where a statement
needs it to be a genuine enumeration of the distinct snippets. -/
def compose_reduce_summary (setOrder : List String) (query : String)
    (snippets : List String) : String :=
  if snippets.isEmpty then "No abstracts/snippets found for query: " ++ query
  else
    let out1 := ["Automatic map-reduce summary for query: \"" ++ query ++ "\"",
                 "Collected " ++ toString snippets.length ++
                   " small snippets (used for further LLM summarization)."]
    let sample0 := [snippets.headD "", snippets.getD (snippets.length / 2) "",
                    snippets.getLastD ""]
    let long_snips := (sortByLenDesc setOrder).take 20
    let sample := sample0 ++ long_snips.take 20
    String.intercalate "\n" (out1 ++ ["\nRepresentative snippets:\n"] ++
      (sample.take 20).map (fun s => "- " ++ takeChars 400 (replaceChar '\n' ' ' s)))

/-- The parameter standing for set(snippets) iteration is a duplicate-free
enumeration of exactly the distinct members of snippets. -/
def validSetOrder (snippets ord : List String) : Prop :=
  ord.Nodup ∧ (∀ s ∈ ord, s ∈ snippets) ∧ (∀ s ∈ snippets, s ∈ ord)

/-- First-occurrence deduplication: the set order under which the iteration
happens to preserve the original relative order of the snippets. -/
def dedupFirstAux (seen : List String) : List String → List String
  | [] => []
  | s :: ts => if seen.contains s then dedupFirstAux seen ts
               else s :: dedupFirstAux (s :: seen) ts

/-- Distinct snippets in first-occurrence order. -/
def dedupFirst (l : List String) : List String := dedupFirstAux [] l

/-- tasks_impl.py run_pipeline, acting on the same job keys as the step
executor.  The paginated discover_papers_openalex network loop is abstracted
by the collected parameter (its accumulated results list); run_pipeline
truncates it to max_papers.  The first component is the job after the last
completed write; the second is the returned summary, none when a statement
raised (normalize_record on a non-dict record, or .split on a truthy
non-string abstract), in which case the caller sees the exception.
set(snippets) iteration is instantiated with first-occurrence order; no
statement below inspects the composed text of this path. -/
def run_pipeline (collected : List JVal) (j : Job) : Job × Option SummaryObj :=
  let j1 := { j with status := "discovering", progress := 5 }
  let papers := collected.take j.max_papers
  match papers.mapM normalize_record with
  | none => (j1, none)
  | some records =>
    let j2 := { j1 with papers := records }
    match records.mapM (fun r => snippetStep (r.get "abstract")) with
    | none => (j2, none)
    | some snipOpts =>
      let snippets := snipOpts.filterMap id
      let j3 := { j2 with status := "summarizing", progress := 60 }
      let composed := compose_reduce_summary (dedupFirst snippets) j.title snippets
      let sObj : SummaryObj := { title := j.title, num_papers := records.length,
                                 composed_summary := composed }
      ({ j3 with summary := some sObj, status := "done", progress := 100 }, some sObj)

/-- worker.py process_job: the queue-driven driver.  Marks the job
processing, runs the whole pipeline, then overwrites the terminal state: on
success it writes status completed (not done) with progress 100 and the
summary under the result field; on an exception it writes status error with
progress 0 (the stringified exception text is abstracted by a placeholder). -/
def process_job (collected : List JVal) (j : Job) : Job :=
  let j0 := { j with status := "processing", progress := 2 }
  match run_pipeline collected j0 with
  | (jf, some sObj) => { jf with status := "completed", progress := 100, result := some sObj }
  | (jf, none) => { jf with status := "error", progress := 0, error := some "exception" }

/-- A fresh job as created by api/index.py create_project (defaults applied
by the caller; title required). -/
def freshJob (title : String) (maxp perRun : Nat) : Job :=
  { status := "queued", title := title, max_papers := maxp, per_run := perRun,
    next_offset := 0, progress := 0, error := none, summary := none,
    result := none, papers := [], processed := [] }

/-- A well-formed raw provider record with a plain-text abstract. -/
def sampleRaw : JVal :=
  JVal.obj [("title", JVal.s "T"), ("abstract", JVal.s "Alpha beta. Gamma delta. Tail.")]

/-- The chunk-boundedness scenario job: ten discovered records, cap ten,
chunk size four, discovery already done. -/
def tenRecJob : Job :=
  { freshJob "q" 10 4 with status := "discovering", progress := 50,
                           papers := List.replicate 10 sampleRaw }

/-- One pull-mode invocation on one job, with a provider outcome that is
irrelevant for jobs whose discovered set is already non-empty. -/
def stepOnce (j : Job) : Job := (stepJob (FetchResult.err "net") j).job

/-- The collected provider results and the fresh job used to exercise the
queue-driven driver on its success path. -/
def pushCollected : List JVal :=
  [JVal.obj [("title", JVal.s "A"), ("abstract", JVal.s "Good result. More text. Extra.")]]

/-- Fresh five-paper job submitted to the queue-driven driver. -/
def pushJob : Job := freshJob "T" 5 5

/-- Claim C1 (code bug witnessed): the queue-driven driver worker.py ends a
successful job with the write status completed, progress 100, result — not
status done.  The resulting persisted state has progress 100 with a status
different from done, contradicting the invariant that progress 100 is
observable only together with status done (the frontends in the repository
poll for the statuses done, error and failed, so a completed job polls
forever).  The summary field is present only because run_pipeline wrote
status done, progress 100 and summary one write earlier, which process_job
then overwrites. -/
theorem process_job_ends_completed_not_done :
    (process_job pushCollected pushJob).status = "completed" ∧
    (process_job pushCollected pushJob).progress = 100 ∧
    ¬ (process_job pushCollected pushJob).status = "done" ∧
    (process_job pushCollected pushJob).summary.isSome = true ∧
    (process_job pushCollected pushJob).result.isSome = true := by
  refine ⟨rfl, rfl, by decide, rfl, rfl⟩

/-- Claim C2: with max_papers 10, per_run 4 and a discovered set of exactly
10 records, three invocations of the step executor drive the job to done:
the cursor advances 0, 4, 8, 10 (slices of sizes 4, 4 and 2), the first two
invocations leave the job in the non-terminal status processing (so fewer
than three steps never finish it), the third sets status done with progress
100 and a readable summary, and the finished job is no longer eligible for
the scan (so no fourth step is taken).  No invocation fetches: the provider
outcome is irrelevant once records are discovered. -/
theorem ten_records_done_in_exactly_three_steps :
    (stepOnce tenRecJob).next_offset = 4 ∧
    (stepOnce tenRecJob).status = "processing" ∧
    (stepOnce (stepOnce tenRecJob)).next_offset = 8 ∧
    (stepOnce (stepOnce tenRecJob)).status = "processing" ∧
    (stepOnce (stepOnce (stepOnce tenRecJob))).next_offset = 10 ∧
    (stepOnce (stepOnce (stepOnce tenRecJob))).status = "done" ∧
    (stepOnce (stepOnce (stepOnce tenRecJob))).summary.isSome = true ∧
    (stepOnce (stepOnce (stepOnce tenRecJob))).progress = 100 ∧
    scanEligible (stepOnce (stepOnce (stepOnce tenRecJob))) = false ∧
    (stepJob (FetchResult.err "net") tenRecJob).ran = true ∧
    (stepJob (FetchResult.err "net") (stepOnce tenRecJob)).ran = true ∧
    (stepJob (FetchResult.err "net") (stepOnce (stepOnce tenRecJob))).ran = true ∧
    (stepJob (FetchResult.err "net") tenRecJob).fetched = false := by decide

/-- A job whose discovery step failed: status discovering, empty discovered
set, error recorded, exactly as written by worker_step.py line 101. -/
def inertJob : Job := { freshJob "t" 7000 100 with status := "discovering", error := some "boom" }

/-- Claim C4 (counterexample): a job whose discovery failed is never
retried.  On a later invocation with the provider healthy again, the step
executor attempts no fetch and leaves the job byte-for-byte unchanged: the
discovery branch requires status queued, but the failure write moved the
status to discovering. -/
theorem failed_discovery_never_retried :
    (stepJob (FetchResult.ok [sampleRaw]) inertJob).fetched = false ∧
    (stepJob (FetchResult.ok [sampleRaw]) inertJob).job = inertJob := ⟨rfl, rfl⟩

/-- A job in the terminal status error, with one discovered record (for
example persisted by a push-mode run that failed after storing papers). -/
def errJob : Job :=
  { freshJob "t" 7000 100 with status := "error", error := some "x", papers := [sampleRaw] }

/-- Claim C5 (counterexample): the eligibility filter is bypassed when the
request names a project_id explicitly.  A job in terminal status error —
which the key scan would reject — is selected as the sole candidate, its
processing branch runs, and the step drives it all the way to done with
progress 100. -/
theorem explicit_selection_steps_terminal_job :
    selectCandidates (some "p") [("p", errJob)] = ["p"] ∧
    scanEligible errJob = false ∧
    (stepJob (FetchResult.err "e") errJob).ran = true ∧
    (stepJob (FetchResult.err "e") errJob).job.status = "done" ∧
    (stepJob (FetchResult.err "e") errJob).job.progress = 100 := by
  refine ⟨rfl, rfl, by decide, by decide, by decide⟩

/-- The inverted-index abstract of the specification example: the word the
at positions 0 and 4, the word fox at position 1. -/
def invIdx : JVal :=
  JVal.obj [("the", JVal.arr [JVal.n 0, JVal.n 4]), ("fox", JVal.arr [JVal.n 1])]

/-- A raw provider record whose abstract arrives only as an inverted index. -/
def invRaw : JVal := JVal.obj [("abstract_inverted_index", invIdx)]

/-- Claim C6 (code bug witnessed): no reconstruction of inverted-index
abstracts exists in the repository.  tasks_impl.py normalize_record copies
the inverted-index mapping verbatim into the abstract field (not the
reconstructed text), api/worker_step.py normalize ignores the field entirely
and yields an empty abstract, and downstream snippet extraction then raises
on the stored mapping (snippetStep returns none, the exception channel),
so the stored value is unusable where a string is expected. -/
theorem inverted_index_not_reconstructed :
    (normalize_record invRaw).map (fun r => r.get "abstract") = some invIdx ∧
    (normalize invRaw).map (fun r => r.get "abstract") = some (JVal.s "") ∧
    snippetStep invIdx = none ∧
    invIdx ≠ JVal.s "the fox the" :=
  ⟨rfl, rfl, rfl, fun h => JVal.noConfusion h⟩

/-- Claim C7 (counterexample): normalize is not None-free.  On the raw
record with no fields at all, both normalizers emit a record whose id field
is None (and likewise title and publication_year), so a field of the
returned record can be null, contrary to the claim that absent fields
always default to an empty string or list. -/
theorem normalize_emits_null_id :
    (normalize (JVal.obj [])).map (fun r => r.get "id") = some JVal.null ∧
    (normalize (JVal.obj [])).map (fun r => r.get "title") = some JVal.null ∧
    (normalize_record (JVal.obj [])).map (fun r => r.get "id") = some JVal.null :=
  ⟨rfl, rfl, rfl⟩

set_option maxRecDepth 40000 in
/-- Claim C8 (counterexample): the tie order among equal-length distinct
snippets is the iteration order of set(snippets), not the original relative
order.  With snippets bb then aa (equal lengths), the two legal set
iteration orders produce different composed summaries, so the output is not
determined by the snippet list alone and the original-order tie-break is
not guaranteed. -/
theorem compose_ties_depend_on_set_order :
    validSetOrder ["bb", "aa"] ["aa", "bb"] ∧
    validSetOrder ["bb", "aa"] ["bb", "aa"] ∧
    compose_reduce_summary ["aa", "bb"] "q" ["bb", "aa"] ≠
      compose_reduce_summary ["bb", "aa"] "q" ["bb", "aa"] := by
  refine ⟨?_, ?_, ?_⟩
  · unfold validSetOrder; decide
  · unfold validSetOrder; decide
  · decide

/-- The discovery branch is skipped entirely unless the job is queued with
an empty discovered set. -/
theorem discoveryPhase_skip (prov : FetchResult) (j : Job)
    (h : ¬ (j.status = "queued" ∧ j.papers.isEmpty = true)) :
    discoveryPhase prov j = (j, false, false) := by
  unfold discoveryPhase
  rw [if_neg h]

/-- Claim C9: replaying a discovery step on a job already past queued, or on
one whose discovered set is non-empty, is a no-op on the discovered set: no
fetch is attempted and the discovery phase returns the job unchanged, so
nothing is appended or duplicated. -/
theorem discovery_replay_is_noop (prov : FetchResult) (j : Job)
    (h : j.status ≠ "queued" ∨ j.papers ≠ []) :
    (stepJob prov j).fetched = false ∧ discoveryPhase prov j = (j, false, false) := by
  have hg : ¬ (j.status = "queued" ∧ j.papers.isEmpty = true) := by
    rintro ⟨h1, h2⟩
    rcases h with h | h
    · exact h h1
    · cases hp : j.papers with
      | nil => exact h hp
      | cons a l => rw [hp] at h2; simp [List.isEmpty] at h2
  have hd := discoveryPhase_skip prov j hg
  refine ⟨?_, hd⟩
  unfold stepJob
  rw [hd]
  simp

/-- A job mid-processing, used to instantiate the replay no-op. -/
def procJob : Job :=
  { freshJob "t" 7000 100 with status := "processing", papers := [sampleRaw] }

/-- Witness for the discovery replay no-op at a concrete mid-processing
job with a healthy provider. -/
theorem discovery_replay_is_noop_witness :
    (stepJob (FetchResult.ok [sampleRaw]) procJob).fetched = false ∧
    discoveryPhase (FetchResult.ok [sampleRaw]) procJob = (procJob, false, false) :=
  discovery_replay_is_noop (FetchResult.ok [sampleRaw]) procJob (Or.inl (by decide))

/-- A processing phase that ran and ended with status done has written the
processed set into the papers blob. -/
theorem processingPhase_done_papers (k : Job)
    (hr : (processingPhase k).2.1 = true) (hs : (processingPhase k).1.status = "done") :
    (processingPhase k).1.papers = (processingPhase k).1.processed := by
  unfold processingPhase at hr hs ⊢
  by_cases h1 : k.papers.isEmpty = true
  · rw [if_pos h1] at hr
    exact Bool.noConfusion hr
  · rw [if_neg h1] at hs ⊢
    by_cases h2 : k.max_papers ≤ procOffset k ∨ k.papers.length ≤ procOffset k
    · rw [if_pos h2] at hs ⊢
      rcases hsn : extractSnippetsE (procMid k).processed with _ | snips
      · rw [hsn] at hs
        have hcontra : ("processing" : String) = "done" := hs
        exact absurd hcontra (by decide)
      · rfl
    · rw [if_neg h2] at hs
      have hcontra : ("processing" : String) = "done" := hs
      exact absurd hcontra (by decide)

/-- Claim C10: a step whose processing branch ran and which ends with
status done has overwritten the raw papers blob with the processed
(normalized) record set, so from then on the papers endpoint serves the
normalized records and the raw discovered set is no longer readable. -/
theorem done_step_serves_processed (prov : FetchResult) (j : Job)
    (hr : (stepJob prov j).ran = true) (hs : (stepJob prov j).job.status = "done") :
    (stepJob prov j).job.papers = (stepJob prov j).job.processed := by
  unfold stepJob at hr hs ⊢
  by_cases hd : (discoveryPhase prov j).2.2 = true
  · rw [if_pos hd] at hr
    exact Bool.noConfusion hr
  · rw [if_neg hd] at hr hs ⊢
    exact processingPhase_done_papers _ hr hs

/-- A one-record job about to complete, used to instantiate the
papers-overwrite theorem. -/
def finishingJob : Job :=
  { freshJob "t" 5 5 with status := "processing", papers := [sampleRaw] }

/-- Witness for the papers-overwrite theorem at a concrete completing
step. -/
theorem done_step_serves_processed_witness :
    (stepJob (FetchResult.err "net") finishingJob).job.papers =
      (stepJob (FetchResult.err "net") finishingJob).job.processed :=
  done_step_serves_processed (FetchResult.err "net") finishingJob (by decide) (by decide)

/-- The discovery phase never touches the cursor. -/
theorem discoveryPhase_next_offset (prov : FetchResult) (j : Job) :
    (discoveryPhase prov j).1.next_offset = j.next_offset := by
  unfold discoveryPhase
  split
  · split
    · split <;> rfl
    · rfl
  · rfl

/-- The discovery phase never touches the chunk size. -/
theorem discoveryPhase_per_run (prov : FetchResult) (j : Job) :
    (discoveryPhase prov j).1.per_run = j.per_run := by
  unfold discoveryPhase
  split
  · split
    · split <;> rfl
    · rfl
  · rfl

/-- A cursor within bounds before the discovery phase is still within the
bounds of the (possibly freshly fetched) discovered list afterwards. -/
theorem discoveryPhase_papers_le (prov : FetchResult) (j : Job)
    (h : j.next_offset ≤ j.papers.length) :
    j.next_offset ≤ (discoveryPhase prov j).1.papers.length := by
  unfold discoveryPhase
  split
  · rename_i hg
    have h0 : j.next_offset = 0 := by
      have hp : j.papers = [] := by
        cases hp : j.papers with
        | nil => rfl
        | cons a l => rw [hp] at hg; simp [List.isEmpty] at hg
      rw [hp] at h
      simpa using h
    rw [h0]
    split
    · split <;> exact Nat.zero_le _
    · exact Nat.zero_le _
  · exact h

/-- Cursor after a processing phase on a job with no discovered records. -/
theorem processingPhase_offset_empty (k : Job) (h : k.papers.isEmpty = true) :
    (processingPhase k).1.next_offset = k.next_offset := by
  unfold processingPhase
  rw [if_pos h]

/-- Cursor after a processing phase on a job with discovered records: it is
advanced by exactly the length of the slice actually taken. -/
theorem processingPhase_offset_nonempty (k : Job) (h : ¬ k.papers.isEmpty = true) :
    (processingPhase k).1.next_offset = procOffset k := by
  unfold processingPhase
  rw [if_neg h]
  split
  · split <;> rfl
  · rfl

/-- The processing branch runs exactly when the discovered list is
non-empty. -/
theorem processingPhase_ran (k : Job) : (processingPhase k).2.1 = !k.papers.isEmpty := by
  unfold processingPhase
  by_cases h : k.papers.isEmpty = true
  · rw [if_pos h, h]
    rfl
  · have hf : k.papers.isEmpty = false := by
      revert h
      cases k.papers.isEmpty <;> simp
    rw [if_neg h, hf]
    split
    · split <;> rfl
    · rfl

/-- The advanced cursor stays within the discovered list. -/
theorem procOffset_le (k : Job) (h : k.next_offset ≤ k.papers.length) :
    procOffset k ≤ k.papers.length := by
  unfold procOffset procChunk
  have h1 := List.length_take k.per_run (k.papers.drop k.next_offset)
  have h2 := List.length_drop k.next_offset k.papers
  omega

/-- The cursor never moves backwards. -/
theorem procOffset_ge (k : Job) : k.next_offset ≤ procOffset k := Nat.le_add_right _ _

/-- Claim C3: across one step-executor invocation the cursor next_offset is
non-decreasing, stays within the length of the discovered set as it stands
after the discovery phase of that invocation, is advanced by exactly the
length of the slice actually taken from the window of size per_run at the
cursor whenever the processing branch ran, and is untouched otherwise. -/
theorem next_offset_monotone_bounded (prov : FetchResult) (j : Job)
    (h : j.next_offset ≤ j.papers.length) :
    j.next_offset ≤ (stepJob prov j).job.next_offset ∧
    (stepJob prov j).job.next_offset ≤ (discoveryPhase prov j).1.papers.length ∧
    ((stepJob prov j).ran = true →
      (stepJob prov j).job.next_offset =
        j.next_offset + (((discoveryPhase prov j).1.papers.drop j.next_offset).take j.per_run).length) ∧
    ((stepJob prov j).ran = false → (stepJob prov j).job.next_offset = j.next_offset) := by
  have hko : (discoveryPhase prov j).1.next_offset = j.next_offset :=
    discoveryPhase_next_offset prov j
  have hkp : (discoveryPhase prov j).1.per_run = j.per_run :=
    discoveryPhase_per_run prov j
  have hkb : j.next_offset ≤ (discoveryPhase prov j).1.papers.length :=
    discoveryPhase_papers_le prov j h
  unfold stepJob
  by_cases hd : (discoveryPhase prov j).2.2 = true
  · rw [if_pos hd]
    dsimp only
    exact ⟨Nat.le_of_eq hko.symm, hko ▸ hkb, fun hfalse => Bool.noConfusion hfalse,
           fun _ => hko⟩
  · rw [if_neg hd]
    dsimp only
    by_cases hp : (discoveryPhase prov j).1.papers.isEmpty = true
    · have ho := processingPhase_offset_empty _ hp
      have hr := processingPhase_ran (discoveryPhase prov j).1
      rw [hp] at hr
      refine ⟨?_, ?_, ?_, ?_⟩
      · rw [ho, hko]
      · rw [ho, hko]
        exact hkb
      · intro htrue
        rw [hr] at htrue
        exact Bool.noConfusion htrue
      · intro _
        rw [ho, hko]
    · have ho := processingPhase_offset_nonempty _ hp
      have hr := processingPhase_ran (discoveryPhase prov j).1
      have hpf : (discoveryPhase prov j).1.papers.isEmpty = false := by
        revert hp
        cases (discoveryPhase prov j).1.papers.isEmpty <;> simp
      rw [hpf] at hr
      have hform : procOffset (discoveryPhase prov j).1 =
          j.next_offset +
            (((discoveryPhase prov j).1.papers.drop j.next_offset).take j.per_run).length := by
        unfold procOffset procChunk
        rw [hko, hkp]
      refine ⟨?_, ?_, ?_, ?_⟩
      · rw [ho, ← hko]
        exact procOffset_ge _
      · rw [ho]
        exact procOffset_le _ (hko ▸ hkb)
      · intro _
        rw [ho, hform]
      · intro hfalse
        rw [hr] at hfalse
        exact Bool.noConfusion hfalse

/-- A mid-run job with two discovered records and a cursor at one, used to
instantiate the cursor invariant. -/
def midJob : Job :=
  { freshJob "t" 10 1 with status := "processing", next_offset := 1,
                           papers := [sampleRaw, sampleRaw] }

/-- Witness for the cursor invariant at a concrete mid-run job: the step
takes the one-record slice at the cursor and advances it to two. -/
theorem next_offset_monotone_bounded_witness :
    midJob.next_offset ≤ (stepJob (FetchResult.err "net") midJob).job.next_offset ∧
    (stepJob (FetchResult.err "net") midJob).job.next_offset ≤
      (discoveryPhase (FetchResult.err "net") midJob).1.papers.length ∧
    ((stepJob (FetchResult.err "net") midJob).ran = true →
      (stepJob (FetchResult.err "net") midJob).job.next_offset =
        midJob.next_offset +
          (((discoveryPhase (FetchResult.err "net") midJob).1.papers.drop midJob.next_offset).take
            midJob.per_run).length) ∧
    ((stepJob (FetchResult.err "net") midJob).ran = false →
      (stepJob (FetchResult.err "net") midJob).job.next_offset = midJob.next_offset) :=
  next_offset_monotone_bounded (FetchResult.err "net") midJob (by decide)

/-- Claim C4 (amended): when the provider fetch of a discovery step fails,
the job is written as status discovering with progress 0 (equal to its
prior value, since discovery only runs on freshly queued jobs) and the
error text recorded; the fetch was attempted, no processing runs, the
per-job try/except means the scheduler loop simply moves on to the rest of
the candidates — but the job is NOT retried afterwards: a later invocation
with any provider outcome leaves the failed job untouched and attempts no
fetch, because the discovery branch requires status queued. -/
theorem discovery_failure_then_inert (m : String) (j : Job)
    (hstat : j.status = "queued") (hpap : j.papers = []) :
    (stepJob (FetchResult.err m) j).job = discoFail m j ∧
    (stepJob (FetchResult.err m) j).fetched = true ∧
    (stepJob (FetchResult.err m) j).ran = false ∧
    (∀ prov2, stepJob prov2 (discoFail m j) = ⟨discoFail m j, false, false, false⟩) ∧
    (∀ (provf : String → FetchResult) (pid : String) (rest : List String)
       (store : List (String × Job)),
       store.lookup pid = some j → provf pid = FetchResult.err m →
       stepAll provf (pid :: rest) store =
         stepAll provf rest (updateStore store pid (discoFail m j))) := by
  have hguard : j.status = "queued" ∧ j.papers.isEmpty = true := by
    refine ⟨hstat, ?_⟩
    rw [hpap]
    rfl
  have hdp : discoveryPhase (FetchResult.err m) j = (discoFail m j, true, true) := by
    unfold discoveryPhase
    rw [if_pos hguard]
  have hsj : stepJob (FetchResult.err m) j = ⟨discoFail m j, true, false, false⟩ := by
    unfold stepJob
    rw [hdp, if_pos rfl]
  have hinert : ∀ prov2, stepJob prov2 (discoFail m j) = ⟨discoFail m j, false, false, false⟩ := by
    intro prov2
    have hg2 : ¬ ((discoFail m j).status = "queued" ∧ (discoFail m j).papers.isEmpty = true) := by
      rintro ⟨hc, -⟩
      have hc2 : ("discovering" : String) = "queued" := hc
      exact absurd hc2 (by decide)
    have hd2 := discoveryPhase_skip prov2 _ hg2
    have hpe : (discoFail m j).papers.isEmpty = true := by
      have hjp : (discoFail m j).papers = j.papers := rfl
      rw [hjp, hpap]
      rfl
    have hpp : processingPhase (discoFail m j) = (discoFail m j, false, false) := by
      unfold processingPhase
      rw [if_pos hpe]
    unfold stepJob
    rw [hd2]
    simp [hpp]
  refine ⟨by rw [hsj], by rw [hsj], by rw [hsj], hinert, ?_⟩
  intro provf pid rest store hlook hprov
  have hstep : stepAll provf (pid :: rest) store =
      match store.lookup pid with
      | none => stepAll provf rest store
      | some jj =>
        if (stepJob (provf pid) jj).crashed then
          (updateStore store pid (stepJob (provf pid) jj).job, [], true)
        else
          ((stepAll provf rest (updateStore store pid (stepJob (provf pid) jj).job)).1,
           (if (stepJob (provf pid) jj).ran then [pid] else []) ++
             (stepAll provf rest (updateStore store pid (stepJob (provf pid) jj).job)).2.1,
           (stepAll provf rest (updateStore store pid (stepJob (provf pid) jj).job)).2.2) := rfl
  rw [hstep, hlook, hprov]
  dsimp only
  rw [hsj]
  simp

/-- A freshly queued job used to instantiate the discovery failure
behavior. -/
def queuedJob : Job := freshJob "covid vaccines" 5 5

/-- Witness for the discovery failure behavior at a concrete queued job:
one failing step records the error, and a later healthy invocation leaves
the failed job inert. -/
theorem discovery_failure_then_inert_witness :
    (stepJob (FetchResult.err "boom") queuedJob).job = discoFail "boom" queuedJob ∧
    stepJob (FetchResult.ok [sampleRaw]) (discoFail "boom" queuedJob) =
      ⟨discoFail "boom" queuedJob, false, false, false⟩ := by
  have h := discovery_failure_then_inert "boom" queuedJob rfl rfl
  exact ⟨h.1, h.2.2.2.1 (FetchResult.ok [sampleRaw])⟩

/-- Claim C5 (amended): when candidates come from the key scan, only jobs
whose status is one of queued, discovering, processing or summarizing are
selected, so terminal jobs are never stepped in scan mode.  (The
counterexample shows the explicit project_id path applies no such check.) -/
theorem scan_selection_only_eligible (jobs : List (String × Job)) (pid : String)
    (h : pid ∈ selectCandidates none jobs) :
    ∃ jjob, (pid, jjob) ∈ jobs ∧ scanEligible jjob = true := by
  unfold selectCandidates at h
  rw [List.mem_map] at h
  obtain ⟨pj, hmem, hfst⟩ := h
  rw [List.mem_filter] at hmem
  cases pj with
  | mk p jjob =>
    cases hfst
    exact ⟨jjob, hmem.1, hmem.2⟩

/-- A finished job as completion leaves it, used in the scan-selection
witness. -/
def doneJob : Job :=
  { freshJob "t" 5 5 with status := "done", progress := 100,
                          summary := some { title := "t", num_papers := 0, composed_summary := "" } }

/-- Witness for the scan-selection theorem on a concrete store holding one
queued and one done job: the scanned candidate is eligible. -/
theorem scan_selection_only_eligible_witness :
    ∃ jjob, ("a", jjob) ∈ [("a", freshJob "t" 5 5), ("b", doneJob)] ∧
      scanEligible jjob = true :=
  scan_selection_only_eligible [("a", freshJob "t" 5 5), ("b", doneJob)] "a" (by decide)

/-- Falsy-default disjunction: a Python or with a non-None default never
yields None. -/
theorem pyOr_ne_null (a b : JVal) (hb : b ≠ JVal.null) : pyOr a b ≠ JVal.null := by
  unfold pyOr
  split
  · intro hh
    rename_i ht
    rw [hh] at ht
    exact Bool.noConfusion ht
  · exact hb

/-- Claim C7 (amended): normalize is total on dict inputs (a non-dict raw
record raises, and the caller catches it and drops the record), and the
doi, journal, abstract and url fields always default to an empty string and
authorships to an empty list — but the id, title and publication_year
fields are passed through and are None exactly when absent from the raw
record (id shown here). -/
theorem normalize_total_with_string_defaults (kvs : List (String × JVal)) :
    ∃ r, normalize (JVal.obj kvs) = some r ∧
      r.get "doi" ≠ JVal.null ∧ r.get "journal" ≠ JVal.null ∧
      r.get "abstract" ≠ JVal.null ∧ r.get "url" ≠ JVal.null ∧
      r.get "authorships" ≠ JVal.null ∧
      ((JVal.obj kvs).get "id" = JVal.null → r.get "id" = JVal.null) := by
  refine ⟨_, rfl, ?_, ?_, ?_, ?_, ?_, ?_⟩
  · exact pyOr_ne_null _ _ (fun hh => JVal.noConfusion hh)
  · exact pyOr_ne_null _ _ (fun hh => JVal.noConfusion hh)
  · exact pyOr_ne_null _ _ (fun hh => JVal.noConfusion hh)
  · exact pyOr_ne_null _ _ (fun hh => JVal.noConfusion hh)
  · exact pyOr_ne_null _ _ (fun hh => JVal.noConfusion hh)
  · exact fun hh => hh

/-- Witness for the normalize defaults theorem at the empty raw record:
every stringy field is non-None while id is None. -/
theorem normalize_total_with_string_defaults_witness :
    ∃ r, normalize (JVal.obj []) = some r ∧
      r.get "doi" ≠ JVal.null ∧ r.get "journal" ≠ JVal.null ∧
      r.get "abstract" ≠ JVal.null ∧ r.get "url" ≠ JVal.null ∧
      r.get "authorships" ≠ JVal.null ∧
      ((JVal.obj []).get "id" = JVal.null → r.get "id" = JVal.null) :=
  normalize_total_with_string_defaults []

/-- Claim C8 (amended): on an empty snippet list, compose returns the fixed
no-snippets message referencing the query; otherwise its representative
list consists of the first snippet, the snippet at the midpoint index, the
last snippet, and then the longest distinct snippets in the (unspecified)
iteration order of the snippet set, stably sorted by descending length —
ties follow that set order, not necessarily the original relative order —
with the list capped at 20 entries, so at most 17 of the sorted distinct
snippets appear. -/
theorem compose_structure (ord : List String) (q : String) (s : List String) :
    compose_reduce_summary ord q [] = "No abstracts/snippets found for query: " ++ q ∧
    (s ≠ [] → compose_reduce_summary ord q s =
      String.intercalate "\n"
        (["Automatic map-reduce summary for query: \"" ++ q ++ "\"",
          "Collected " ++ toString s.length ++
            " small snippets (used for further LLM summarization).",
          "\nRepresentative snippets:\n"] ++
         (([s.headD "", s.getD (s.length / 2) "", s.getLastD ""] ++
             (sortByLenDesc ord).take 17).map
           (fun t => "- " ++ takeChars 400 (replaceChar '\n' ' ' t))))) := by
  constructor
  · rfl
  · intro hs
    have hne : s.isEmpty = false := by
      cases s with
      | nil => exact absurd rfl hs
      | cons a t => rfl
    unfold compose_reduce_summary
    rw [hne, if_neg (fun hh => Bool.noConfusion hh)]
    dsimp only
    congr 1
    rw [List.take_append_eq_append_take,
        List.take_of_length_le
          (by norm_num :
            ([s.headD "", s.getD (s.length / 2) "", s.getLastD ""] : List String).length ≤ 20),
        List.take_take]
    norm_num
    rw [List.take_take]
    norm_num

/-- Witness for the compose structure theorem at the one-snippet input,
with the output evaluated to its literal text. -/
theorem compose_structure_witness :
    compose_reduce_summary ["x"] "q" ["x"] =
      "Automatic map-reduce summary for query: \"q\"\nCollected 1 small snippets (used for further LLM summarization).\n\nRepresentative snippets:\n\n- x\n- x\n- x\n- x" := by
  have h := (compose_structure ["x"] "q" ["x"]).2 (by decide)
  rw [h]
  rfl

end LitScanner
